import Mathlib

/-!
Verification of the hyperqueue automatic-allocator and client helpers.

The definitions below are a shallow embedding of the Rust sources:
  crates/hyperqueue/src/server/autoalloc/process.rs
  crates/hyperqueue/src/client/commands/autoalloc.rs
  crates/hyperqueue/src/client/commands/submit/jobfile.rs
  crates/tako/src/internal/worker/localcomm.rs
Rust machine integers (u32, u64) are modelled by Nat; saturating_sub is
Nat subtraction.  Wall-clock instants (SystemTime) are modelled by Nat
timestamps passed in as parameters.  The asynchronous handler calls are
modelled by pure functions threading an explicit handler state, which is
faithful because the server runs on a single-threaded cooperative
executor and the autoalloc tick awaits each handler call in sequence.
-/

/-- Allocation ids are strings returned by the batch system. -/
abbrev AllocationId := String

/-- Descriptor ids are integers. -/
abbrev DescriptorId := Nat

/-- Status of one allocation, from server/autoalloc/state.rs.  The
SystemTime payloads of Running, Finished and Failed are modelled as Nat
timestamps. -/
inductive AllocationStatus where
  | Queued : AllocationStatus
  | Running (started_at : Nat) : AllocationStatus
  | Finished (started_at finished_at : Nat) : AllocationStatus
  | Failed (started_at finished_at : Nat) : AllocationStatus
deriving DecidableEq, Repr

/-- One allocation record, from server/autoalloc/state.rs. -/
structure Allocation where
  id : AllocationId
  worker_count : Nat
  queued_at : Nat
  status : AllocationStatus
  working_dir : String
deriving DecidableEq, Repr

/-- Modelled from the spec: an allocation is active when it is Queued or
Running (spec section 3, Allocation lifecycle); the method body of
Allocation::is_active lives in state.rs, which is outside src/. -/
def Allocation.is_active (a : Allocation) : Bool :=
  match a.status with
  | AllocationStatus.Queued => true
  | AllocationStatus.Running _ => true
  | _ => false

/-- Events appended to the per-descriptor log, from
server/autoalloc/state.rs. -/
inductive AllocationEvent where
  | AllocationQueued (id : AllocationId) : AllocationEvent
  | AllocationStarted (id : AllocationId) : AllocationEvent
  | AllocationFinished (id : AllocationId) : AllocationEvent
  | AllocationFailed (id : AllocationId) : AllocationEvent
  | AllocationDisappeared (id : AllocationId) : AllocationEvent
  | QueueFail (error : String) : AllocationEvent
  | StatusFail (error : String) : AllocationEvent
deriving DecidableEq, Repr

/-- Queue configuration of one descriptor (backlog, workers per
allocation, walltime), from server/autoalloc/descriptor.rs QueueInfo. -/
structure QueueInfo where
  backlog : Nat
  workers_per_alloc : Nat
  timelimit : Nat
deriving DecidableEq, Repr

/-- The mutable per-descriptor state: configuration, the allocation map
and the event log.  The allocation map is modelled as a list of
allocations; the event log as a list with new events appended at the
end. -/
structure DescriptorState where
  info : QueueInfo
  allocations : List Allocation
  events : List AllocationEvent
deriving DecidableEq, Repr

/-- Modelled from the spec: add_event appends to the per-descriptor
event log (spec section 3: the log is an append-only bounded ring; the
capacity bound is a configuration option and not a contract, so the
model keeps every event). -/
def DescriptorState.add_event (d : DescriptorState) (e : AllocationEvent) : DescriptorState :=
  { d with events := d.events ++ [e] }

/-- Modelled from the spec: add_allocation inserts a new allocation into
the descriptor map. -/
def DescriptorState.add_allocation (d : DescriptorState) (a : Allocation) : DescriptorState :=
  { d with allocations := d.allocations ++ [a] }

/-- Modelled from the spec: remove_allocation deletes the allocation
with the given id from the map. -/
def DescriptorState.remove_allocation (d : DescriptorState) (aid : AllocationId) : DescriptorState :=
  { d with allocations := d.allocations.filter (fun a => a.id ≠ aid) }

/-- Modelled from the spec: lookup of one allocation by id
(get_allocation_mut in state.rs). -/
def DescriptorState.get_allocation (d : DescriptorState) (aid : AllocationId) : Option Allocation :=
  d.allocations.find? (fun a => a.id = aid)

/-- The assignment allocation.status = status performed through
get_allocation_mut: a no-op when the id is absent. -/
def DescriptorState.set_status (d : DescriptorState) (aid : AllocationId)
    (st : AllocationStatus) : DescriptorState :=
  { d with allocations :=
      d.allocations.map (fun a => if a.id = aid then { a with status := st } else a) }

/-- Modelled from the spec: the allocations currently in state Queued
(queued_allocations in state.rs). -/
def DescriptorState.queued_allocations (d : DescriptorState) : List Allocation :=
  d.allocations.filter (fun a => a.status = AllocationStatus.Queued)

/-- Modelled from the spec: the allocations that are active, i.e. Queued
or Running (active_allocations in state.rs). -/
def DescriptorState.active_allocations (d : DescriptorState) : List Allocation :=
  d.allocations.filter (fun a => a.is_active)

/-- Result of a successful schedule_allocation call, from
server/autoalloc/descriptor.rs CreatedAllocation. -/
structure CreatedAllocation where
  id : String
  working_dir : String
deriving DecidableEq, Repr

/-- The QueueHandler trait: the PBS/SLURM facade.  Each asynchronous
operation is modelled as a pure function threading a handler state S. -/
structure QueueHandler (S : Type) where
  schedule_allocation : S → DescriptorId → QueueInfo → Nat → Except String CreatedAllocation × S
  get_allocation_status : S → AllocationId → Except String (Option AllocationStatus) × S

/-- A trace entry for one outbound handler call, used to state ordering
properties of a tick. -/
inductive HandlerCall where
  | StatusCall (id : AllocationId) : HandlerCall
  | ScheduleCall (workers : Nat) : HandlerCall
deriving DecidableEq, Repr

/-- Modelled from the spec: one job as seen by the allocator through the
narrow accessor of spec section 5 (the Job type lives in server/job.rs,
outside src/): its minimum walltime request and its current number of
waiting tasks. -/
structure Job where
  min_time : Nat
  n_waiting_tasks : Nat
deriving DecidableEq, Repr

/-- can_provide_worker from process.rs lines 165-167: workers of this
queue can serve the job iff the job's min_time is strictly below the
queue walltime. -/
def can_provide_worker (job : Job) (queue_info : QueueInfo) : Bool :=
  job.min_time < queue_info.timelimit

/-- count_available_tasks from process.rs lines 169-181: total waiting
tasks over the jobs the queue can serve. -/
def count_available_tasks (jobs : List Job) (queue_info : QueueInfo) : Nat :=
  (jobs.map (fun job =>
    if can_provide_worker job queue_info then job.n_waiting_tasks else 0)).sum

/-- The body of one iteration of refresh_allocations (process.rs lines
98-158): query the status of one allocation and update the descriptor. -/
def refresh_one {S : Type} (h : QueueHandler S) (s : S) (d : DescriptorState)
    (aid : AllocationId) : S × DescriptorState :=
  let res := h.get_allocation_status s aid
  let s' := res.2
  match res.1 with
  | Except.ok (some st) =>
    match st with
    | AllocationStatus.Running t =>
      match d.get_allocation aid with
      | none => (s', d)
      | some alloc =>
        let d1 := if alloc.status = AllocationStatus.Queued
          then d.add_event (AllocationEvent.AllocationStarted aid) else d
        (s', d1.set_status aid (AllocationStatus.Running t))
    | AllocationStatus.Finished t1 t2 =>
      (s', (d.add_event (AllocationEvent.AllocationFinished aid)).set_status aid
        (AllocationStatus.Finished t1 t2))
    | AllocationStatus.Failed t1 t2 =>
      (s', (d.add_event (AllocationEvent.AllocationFailed aid)).set_status aid
        (AllocationStatus.Failed t1 t2))
    | AllocationStatus.Queued =>
      (s', d.set_status aid AllocationStatus.Queued)
  | Except.ok none =>
    (s', (d.remove_allocation aid).add_event (AllocationEvent.AllocationDisappeared aid))
  | Except.error err =>
    (s', d.add_event (AllocationEvent.StatusFail err))

/-- The loop of refresh_allocations over the snapshot of active
allocation ids, also recording the status calls issued. -/
def refresh_loop {S : Type} (h : QueueHandler S) :
    List AllocationId → S → DescriptorState → S × DescriptorState × List HandlerCall
  | [], s, d => (s, d, [])
  | aid :: ids, s, d =>
    let r := refresh_one h s d aid
    let rest := refresh_loop h ids r.1 r.2
    (rest.1, rest.2.1, HandlerCall.StatusCall aid :: rest.2.2)

/-- refresh_allocations from process.rs lines 92-159: snapshot the ids
of the active allocations, then refresh each in sequence. -/
def refresh_allocations {S : Type} (h : QueueHandler S) (s : S) (d : DescriptorState) :
    S × DescriptorState × List HandlerCall :=
  refresh_loop h (d.active_allocations.map (fun a => a.id)) s d

/-- The for-loop of schedule_new_allocations (process.rs lines 205-247):
up to fuel iterations, call schedule_allocation; on success insert a
Queued allocation, emit AllocationQueued, decrement waiting (saturating)
and break at zero; on failure emit QueueFail and continue. -/
def schedule_loop {S : Type} (h : QueueHandler S) (did now : Nat) :
    Nat → S → DescriptorState → Nat → S × DescriptorState × List HandlerCall
  | 0, s, d, _ => (s, d, [])
  | fuel + 1, s, d, waiting =>
    let wpa := d.info.workers_per_alloc
    let res := h.schedule_allocation s did d.info wpa
    match res.1 with
    | Except.ok created =>
      let d' := (d.add_event (AllocationEvent.AllocationQueued created.id)).add_allocation
        { id := created.id, worker_count := wpa, queued_at := now,
          status := AllocationStatus.Queued, working_dir := created.working_dir }
      let waiting' := waiting - wpa
      if waiting' = 0 then
        (res.2, d', [HandlerCall.ScheduleCall wpa])
      else
        let rest := schedule_loop h did now fuel res.2 d' waiting'
        (rest.1, rest.2.1, HandlerCall.ScheduleCall wpa :: rest.2.2)
    | Except.error err =>
      let rest := schedule_loop h did now fuel res.2
        (d.add_event (AllocationEvent.QueueFail err)) waiting
      (rest.1, rest.2.1, HandlerCall.ScheduleCall wpa :: rest.2.2)

/-- schedule_new_allocations from process.rs lines 184-248: compute the
number of allocations to create (backlog minus currently queued,
saturating) and the feasible waiting tasks; skip entirely when no task
is waiting, otherwise run the schedule loop. -/
def schedule_new_allocations {S : Type} (h : QueueHandler S) (did now : Nat)
    (jobs : List Job) (s : S) (d : DescriptorState) :
    S × DescriptorState × List HandlerCall :=
  let allocations_to_create := d.info.backlog - d.queued_allocations.length
  let waiting_tasks := count_available_tasks jobs d.info
  if waiting_tasks = 0 then (s, d, [])
  else schedule_loop h did now allocations_to_create s d waiting_tasks

/-- process_descriptor from process.rs lines 82-86: refresh the
allocation statuses, then schedule new allocations; the handler-call
trace is the concatenation of the two phases. -/
def process_descriptor {S : Type} (h : QueueHandler S) (did now : Nat)
    (jobs : List Job) (s : S) (d : DescriptorState) :
    S × DescriptorState × List HandlerCall :=
  let r := refresh_allocations h s d
  let r2 := schedule_new_allocations h did now jobs r.1 r.2.1
  (r2.1, r2.2.1, r.2.2 ++ r2.2.2)

/-- One descriptor together with its handler and handler state, as held
by AutoAllocState. -/
structure DescriptorEntry (S : Type) where
  handler : QueueHandler S
  hstate : S
  dstate : DescriptorState

/-- autoalloc_tick from process.rs lines 70-80: process every
descriptor (the descriptor id is its index). -/
def autoalloc_tick {S : Type} (now : Nat) (jobs : List Job)
    (entries : List (DescriptorEntry S)) : List (DescriptorEntry S) :=
  entries.enum.map (fun p =>
    let r := process_descriptor p.2.handler p.1 now jobs p.2.hstate p.2.dstate
    { p.2 with hstate := r.1, dstate := r.2.1 })

/-- autoalloc_shutdown from process.rs lines 38-68: the allocation ids
for which remove_allocation is called, namely every active allocation of
every descriptor. -/
def autoalloc_shutdown_calls (descs : List DescriptorState) : List AllocationId :=
  (descs.map (fun d => (d.allocations.filter (fun a => a.is_active)).map (fun a => a.id))).flatten

/-- ManagerType from common/manager/info.rs: the batch system kind. -/
inductive ManagerType where
  | Pbs : ManagerType
  | Slurm : ManagerType
deriving DecidableEq, Repr

/-- AddQueueParams from transfer/messages.rs, as assembled by
create_queue_params in client/commands/autoalloc.rs lines 168-189. -/
structure AddQueueParams where
  workers_per_alloc : Nat
  backlog : Nat
  queue : String
  timelimit : Option Nat
  name : Option String
  additional_args : List String
deriving DecidableEq, Repr

/-- The AddQueue request variants sent to the server (AddQueueRequest in
transfer/messages.rs). -/
inductive AddQueueRequest where
  | Pbs (params : AddQueueParams) : AddQueueRequest
  | Slurm (params : AddQueueParams) : AddQueueRequest
deriving DecidableEq, Repr

/-- add_queue from client/commands/autoalloc.rs lines 191-217: validate
the backlog, then build the message that is sent to the server.  The
result is the message sent on success, or the client-side error returned
before anything is sent. -/
def add_queue (params : AddQueueParams) (manager : ManagerType) :
    Except String AddQueueRequest :=
  if 100 < params.backlog then
    Except.error "Backlog size is limited to 100 to avoid overloading the job manager"
  else
    Except.ok (match manager with
      | ManagerType.Pbs => AddQueueRequest.Pbs params
      | ManagerType.Slurm => AddQueueRequest.Slurm params)


/-- One task entry of a job definition file
(client/commands/submit/defs.rs TaskDef): an optional explicit id plus
dependency lists.  The task configuration payload (command, stdio,
resources) is irrelevant to id assignment and is not modelled. -/
structure TaskDef where
  id : Option Nat
  deps : List Nat
  data_deps : List Nat
deriving DecidableEq, Repr

/-- TaskWithDependencies from transfer/messages.rs, restricted to the
id-relevant fields. -/
structure TaskWithDependencies where
  id : Nat
  task_deps : List Nat
  data_deps : List Nat
deriving DecidableEq, Repr

/-- build_task from jobfile.rs lines 87-103: an explicit id is kept; a
missing id increments the running maximum and uses it.  The mutable
max_id reference is modelled by state passing. -/
def build_task (tdef : TaskDef) (max_id : Nat) : TaskWithDependencies × Nat :=
  match tdef.id with
  | some i => ({ id := i, task_deps := tdef.deps, data_deps := tdef.data_deps }, max_id)
  | none =>
    ({ id := max_id + 1, task_deps := tdef.deps, data_deps := tdef.data_deps }, max_id + 1)

/-- The iterator of jobfile.rs line 133-136 threading the mutable max_id
through build_task. -/
def build_tasks_go : List TaskDef → Nat → List TaskWithDependencies
  | [], _ => []
  | t :: ts, m =>
    let r := build_task t m
    r.1 :: build_tasks_go ts r.2

/-- The initial max_id of jobfile.rs lines 125-130: the maximum explicit
id in the task list, or 0 when no task has an explicit id. -/
def max_explicit_id (tasks : List TaskDef) : Nat :=
  tasks.foldl (fun m t => max m (t.id.getD 0)) 0

/-- build_job_desc_individual_tasks from jobfile.rs lines 121-138,
returning the task list of the resulting Graph job description. -/
def build_job_desc_individual_tasks (tasks : List TaskDef) : List TaskWithDependencies :=
  build_tasks_go tasks (max_explicit_id tasks)

/-- Registration from tako worker/localcomm.rs. -/
inductive Registration where
  | DataConnection (task_id : Nat) : Registration
deriving DecidableEq, Repr

/-- LocalCommState from tako worker/localcomm.rs: the socket path and
the token registry.  The hashbrown map is modelled as an association
list; register_task only ever inserts fresh keys, so insertion is
modelled as appending the new binding. -/
structure LocalCommState where
  unix_socket_path : String
  registered_tokens : List (String × Registration)
deriving DecidableEq, Repr

/-- check_token from localcomm.rs lines 89-91: look the token up in the
registry. -/
def LocalCommState.check_token (st : LocalCommState) (token : String) : Option Registration :=
  (st.registered_tokens.find? (fun p => p.1 = token)).map (fun p => p.2)

/-- register_task from localcomm.rs lines 73-83: draw candidate tokens
until one does not collide with the registry, then insert it.  The
random token generator is modelled by the list of candidate tokens it
would produce; the function returns none when the candidate supply runs
out (the Rust loop would keep drawing). -/
def LocalCommState.register_task (st : LocalCommState) (registration : Registration) :
    List String → Option (String × LocalCommState)
  | [] => none
  | t :: rest =>
    if st.registered_tokens.any (fun p => p.1 = t) then
      st.register_task registration rest
    else
      some (t, { st with registered_tokens := st.registered_tokens ++ [(t, registration)] })

/-- A handler whose schedule_allocation always succeeds (mirrors the
always_queued_handler of the process.rs tests, with a constant
allocation id since the concrete checks below never need id
uniqueness). -/
def okHandler : QueueHandler Unit where
  schedule_allocation := fun s _ _ _ => (Except.ok { id := "x", working_dir := "" }, s)
  get_allocation_status := fun s _ => (Except.ok (some AllocationStatus.Queued), s)

/-- A handler whose schedule_allocation always fails (mirrors the
handler of test_log_failed_allocation_attempt in process.rs). -/
def errHandler : QueueHandler Unit where
  schedule_allocation := fun s _ _ _ => (Except.error "foo", s)
  get_allocation_status := fun s _ => (Except.ok (some AllocationStatus.Queued), s)

/-- A handler that reports every allocation as Running (used to drive a
Queued allocation into the Running state). -/
def runningHandler : QueueHandler Unit where
  schedule_allocation := fun s _ _ _ => (Except.ok { id := "b", working_dir := "" }, s)
  get_allocation_status := fun s _ => (Except.ok (some (AllocationStatus.Running 0)), s)

/-- A single job with 5 waiting tasks and no walltime requirement. -/
def fiveTaskJobs : List Job := [{ min_time := 0, n_waiting_tasks := 5 }]

/-- A fresh descriptor with the given backlog, workers per allocation
and walltime. -/
def freshDescriptor (b w tl : Nat) : DescriptorState :=
  { info := { backlog := b, workers_per_alloc := w, timelimit := tl },
    allocations := [], events := [] }

/-- A descriptor with backlog 1 that already has one Running
allocation. -/
def runningDescriptor : DescriptorState :=
  { info := { backlog := 1, workers_per_alloc := 1, timelimit := 60 },
    allocations := [{ id := "a", worker_count := 1, queued_at := 0,
                      status := AllocationStatus.Running 0, working_dir := "" }],
    events := [] }

/-- A descriptor with backlog 2 holding one Queued allocation, so that
one tick issues a status call and then a schedule call. -/
def oneQueuedDescriptor : DescriptorState :=
  { info := { backlog := 2, workers_per_alloc := 1, timelimit := 60 },
    allocations := [{ id := "a", worker_count := 1, queued_at := 0,
                      status := AllocationStatus.Queued, working_dir := "" }],
    events := [] }

/-- Two descriptor states used to check the shutdown call pattern: three
distinct allocation ids, of which two are active and one terminal. -/
def shutdownDescriptors : List DescriptorState :=
  [{ info := { backlog := 4, workers_per_alloc := 1, timelimit := 60 },
     allocations := [{ id := "a", worker_count := 1, queued_at := 0,
                       status := AllocationStatus.Queued, working_dir := "" },
                     { id := "c", worker_count := 1, queued_at := 0,
                       status := AllocationStatus.Finished 1 2, working_dir := "" }],
     events := [] },
   { info := { backlog := 4, workers_per_alloc := 1, timelimit := 60 },
     allocations := [{ id := "b", worker_count := 1, queued_at := 0,
                       status := AllocationStatus.Running 1, working_dir := "" }],
     events := [] }]

/-- Queue parameters with backlog 0, outside the documented 1..=100
range. -/
def zeroBacklogParams : AddQueueParams :=
  { workers_per_alloc := 1, backlog := 0, queue := "queue", timelimit := none,
    name := none, additional_args := [] }

/-- A job file task list mixing explicit ids 5 and 2 with two id-less
tasks. -/
def mixedIdTasks : List TaskDef :=
  [{ id := some 5, deps := [], data_deps := [] },
   { id := none, deps := [], data_deps := [] },
   { id := some 2, deps := [], data_deps := [] },
   { id := none, deps := [], data_deps := [] }]

/-- A token registry already holding token a, with a candidate stream
whose first draw collides. -/
def oneTokenState : LocalCommState :=
  { unix_socket_path := "", registered_tokens := [("a", Registration.DataConnection 1)] }

/-- The registry oneTokenState after registering a task under the fresh
token b. -/
def twoTokenState : LocalCommState :=
  { unix_socket_path := "",
    registered_tokens := [("a", Registration.DataConnection 1),
                          ("b", Registration.DataConnection 2)] }

/-- C6 counterexample: a request with backlog 0 lies outside the range
1..=100, yet add_queue accepts it and builds the server message instead
of returning an error. -/
theorem add_queue_accepts_backlog_zero :
    zeroBacklogParams.backlog = 0 ∧
    add_queue zeroBacklogParams ManagerType.Pbs
      = Except.ok (AddQueueRequest.Pbs zeroBacklogParams) :=
  ⟨rfl, rfl⟩

/-- C6 (amended): add_queue rejects a request, before any message is
sent, exactly when its backlog exceeds 100; every backlog of at most
100, including the out-of-range value 0, is accepted and turned into the
AddQueue message. -/
theorem add_queue_error_iff_backlog_gt_100 (params : AddQueueParams) (manager : ManagerType) :
    ((∃ msg, add_queue params manager = Except.ok msg) ↔ params.backlog ≤ 100) ∧
    ((∃ e, add_queue params manager = Except.error e) ↔ 100 < params.backlog) := by
  unfold add_queue
  by_cases hb : 100 < params.backlog
  · rw [if_pos hb]
    constructor
    · constructor
      · rintro ⟨msg, hmsg⟩
        cases hmsg
      · intro hle
        omega
    · constructor
      · intro _
        exact hb
      · intro _
        exact ⟨_, rfl⟩
  · rw [if_neg hb]
    constructor
    · constructor
      · intro _
        omega
      · intro _
        exact ⟨_, rfl⟩
    · constructor
      · rintro ⟨e, he⟩
        cases he
      · intro hgt
        exact absurd hgt hb

theorem build_tasks_go_length (ts : List TaskDef) (m : Nat) :
    (build_tasks_go ts m).length = ts.length := by
  induction ts generalizing m with
  | nil => rfl
  | cons t ts ih => simp [build_tasks_go, ih]

theorem foldl_max_le_init (ts : List TaskDef) :
    ∀ acc : Nat, acc ≤ ts.foldl (fun m t => max m (t.id.getD 0)) acc := by
  induction ts with
  | nil => intro acc; exact Nat.le_refl acc
  | cons t ts ih => intro acc; exact le_trans (Nat.le_max_left _ _) (ih _)

theorem mem_le_foldl_max (tasks : List TaskDef) (t : TaskDef) (ht : t ∈ tasks) :
    ∀ acc : Nat, t.id.getD 0 ≤ tasks.foldl (fun m x => max m (x.id.getD 0)) acc := by
  induction tasks with
  | nil => cases ht
  | cons x ts ih =>
    intro acc
    rcases List.mem_cons.mp ht with h | h
    · subst h
      exact le_trans (Nat.le_max_right _ _) (foldl_max_le_init ts _)
    · exact ih h _

theorem explicit_le_max_explicit_id (tasks : List TaskDef) (t : TaskDef) (e : Nat)
    (ht : t ∈ tasks) (he : t.id = some e) : e ≤ max_explicit_id tasks := by
  have := mem_le_foldl_max tasks t ht 0
  rw [he] at this
  exact this

theorem build_tasks_go_id_eq (ts : List TaskDef) (m i : Nat) (td : TaskDef)
    (h : ts[i]? = some td) :
    ((build_tasks_go ts m)[i]?).map (fun t => t.id)
      = some (match td.id with
        | some e => e
        | none => m + 1 + (ts.take i).countP (fun t => t.id.isNone)) := by
  induction ts generalizing m i with
  | nil => simp at h
  | cons t ts ih =>
    cases i with
    | zero =>
      rw [List.getElem?_cons_zero] at h
      injection h with h
      subst h
      cases ht : t.id with
      | some e => simp [build_tasks_go, build_task, ht]
      | none => simp [build_tasks_go, build_task, ht]
    | succ n =>
      rw [List.getElem?_cons_succ] at h
      rw [show build_tasks_go (t :: ts) m
            = (build_task t m).1 :: build_tasks_go ts (build_task t m).2 from rfl]
      rw [List.getElem?_cons_succ, ih (build_task t m).2 n h, List.take_succ_cons]
      cases ht : t.id with
      | some e0 =>
        cases htd : td.id with
        | some e => simp [build_task, ht, List.countP_cons]
        | none => simp [build_task, ht, List.countP_cons]
      | none =>
        cases htd : td.id with
        | some e => simp [build_task, ht, List.countP_cons]
        | none =>
          simp only [build_task, ht, List.countP_cons]
          simp
          omega

theorem countP_take_lt_of_none (ts : List TaskDef) :
    ∀ (i j : Nat) (td : TaskDef), i < j → ts[i]? = some td → td.id = none →
    (ts.take i).countP (fun t => t.id.isNone) < (ts.take j).countP (fun t => t.id.isNone) := by
  induction ts with
  | nil =>
    intro i j td _ h _
    simp at h
  | cons t ts ih =>
    intro i j td hij h hn
    obtain ⟨k, rfl⟩ : ∃ k, j = k + 1 := ⟨j - 1, by omega⟩
    cases i with
    | zero =>
      rw [List.getElem?_cons_zero] at h
      injection h with h
      subst h
      rw [List.take_succ_cons]
      simp [List.countP_cons, hn]
    | succ n =>
      rw [List.getElem?_cons_succ] at h
      rw [List.take_succ_cons, List.take_succ_cons]
      simp only [List.countP_cons]
      have := ih n k td (by omega) h hn
      omega

theorem build_id_of_none (tasks : List TaskDef) (i : Nat) (td : TaskDef)
    (tw : TaskWithDependencies) (h1 : tasks[i]? = some td)
    (h2 : (build_job_desc_individual_tasks tasks)[i]? = some tw) (hn : td.id = none) :
    tw.id = max_explicit_id tasks + 1 + (tasks.take i).countP (fun t => t.id.isNone) := by
  have hc := build_tasks_go_id_eq tasks (max_explicit_id tasks) i td h1
  rw [hn] at hc
  unfold build_job_desc_individual_tasks at h2
  rw [h2] at hc
  simpa using hc

theorem build_id_of_some (tasks : List TaskDef) (i : Nat) (td : TaskDef)
    (tw : TaskWithDependencies) (e : Nat) (h1 : tasks[i]? = some td)
    (h2 : (build_job_desc_individual_tasks tasks)[i]? = some tw) (hs : td.id = some e) :
    tw.id = e := by
  have hc := build_tasks_go_id_eq tasks (max_explicit_id tasks) i td h1
  rw [hs] at hc
  unfold build_job_desc_individual_tasks at h2
  rw [h2] at hc
  simpa using hc

/-- C9: in build_job_desc_individual_tasks every task without an
explicit id receives a generated id strictly above the maximum explicit
id of the whole list (or above 0 when there is none), generated ids
strictly increase along the list, and a generated id never collides with
any other assigned id. -/
theorem build_job_generated_ids_fresh (tasks : List TaskDef) :
    (build_job_desc_individual_tasks tasks).length = tasks.length ∧
    (∀ (i : Nat) (td : TaskDef) (tw : TaskWithDependencies), tasks[i]? = some td →
      (build_job_desc_individual_tasks tasks)[i]? = some tw →
      td.id = none → max_explicit_id tasks < tw.id) ∧
    (∀ (i j : Nat) (tdi tdj : TaskDef) (twi twj : TaskWithDependencies),
      i < j → tasks[i]? = some tdi → tasks[j]? = some tdj →
      (build_job_desc_individual_tasks tasks)[i]? = some twi →
      (build_job_desc_individual_tasks tasks)[j]? = some twj →
      tdi.id = none → tdj.id = none → twi.id < twj.id) ∧
    (∀ (i j : Nat) (tdi tdj : TaskDef) (twi twj : TaskWithDependencies),
      i ≠ j → tasks[i]? = some tdi → tasks[j]? = some tdj →
      (build_job_desc_individual_tasks tasks)[i]? = some twi →
      (build_job_desc_individual_tasks tasks)[j]? = some twj →
      tdi.id = none → twi.id ≠ twj.id) := by
  refine ⟨build_tasks_go_length tasks (max_explicit_id tasks), ?_, ?_, ?_⟩
  · intro i td tw h1 h2 hn
    rw [build_id_of_none tasks i td tw h1 h2 hn]
    omega
  · intro i j tdi tdj twi twj hij h1i h1j h2i h2j hni hnj
    rw [build_id_of_none tasks i tdi twi h1i h2i hni,
      build_id_of_none tasks j tdj twj h1j h2j hnj]
    have := countP_take_lt_of_none tasks i j tdi hij h1i hni
    omega
  · intro i j tdi tdj twi twj hij h1i h1j h2i h2j hni
    cases hdj : tdj.id with
    | some e =>
      have hje := build_id_of_some tasks j tdj twj e h1j h2j hdj
      have hle := explicit_le_max_explicit_id tasks tdj e (List.getElem?_mem h1j) hdj
      have hgt := build_id_of_none tasks i tdi twi h1i h2i hni
      omega
    | none =>
      have hi := build_id_of_none tasks i tdi twi h1i h2i hni
      have hj := build_id_of_none tasks j tdj twj h1j h2j hdj
      rcases Nat.lt_or_ge i j with hlt | hge
      · have := countP_take_lt_of_none tasks i j tdi hlt h1i hni
        omega
      · have hlt : j < i := by omega
        have := countP_take_lt_of_none tasks j i tdj hlt h1j hdj
        omega

/-- C9 witness: on the concrete list with explicit ids 5 and 2 and two
id-less tasks, the generated ids are 6 and 7: above the maximum explicit
id 5, increasing, and distinct from the explicit ids. -/
theorem build_job_generated_ids_fresh_witness :
    (build_job_desc_individual_tasks mixedIdTasks).length = mixedIdTasks.length ∧
    max_explicit_id mixedIdTasks < 6 ∧ (6 : Nat) < 7 ∧ (6 : Nat) ≠ 2 := by
  have h := build_job_generated_ids_fresh mixedIdTasks
  refine ⟨h.1, ?_, ?_, ?_⟩
  · exact h.2.1 1 { id := none, deps := [], data_deps := [] }
      { id := 6, task_deps := [], data_deps := [] } (by decide) (by decide) rfl
  · exact h.2.2.1 1 3 { id := none, deps := [], data_deps := [] }
      { id := none, deps := [], data_deps := [] }
      { id := 6, task_deps := [], data_deps := [] }
      { id := 7, task_deps := [], data_deps := [] }
      (by omega) (by decide) (by decide) (by decide) (by decide) rfl rfl
  · exact h.2.2.2 1 2 { id := none, deps := [], data_deps := [] }
      { id := some 2, deps := [], data_deps := [] }
      { id := 6, task_deps := [], data_deps := [] }
      { id := 2, task_deps := [], data_deps := [] }
      (by omega) (by decide) (by decide) (by decide) (by decide) rfl

theorem check_token_of_not_any (st : LocalCommState) (t : String)
    (h : st.registered_tokens.any (fun p => p.1 = t) = false) :
    st.check_token t = none := by
  unfold LocalCommState.check_token
  rw [List.find?_eq_none.mpr]
  · rfl
  · intro x hx
    have := List.any_eq_true.not.mp (by rw [h]; simp)
    push_neg at this
    have hx2 := this x hx
    simpa using hx2

theorem check_token_append_self (st : LocalCommState) (t : String) (r : Registration)
    (h : st.registered_tokens.any (fun p => p.1 = t) = false) :
    (LocalCommState.mk st.unix_socket_path (st.registered_tokens ++ [(t, r)])).check_token t
      = some r := by
  unfold LocalCommState.check_token
  rw [List.find?_append]
  have h1 : st.registered_tokens.find? (fun p => p.1 = t) = none := by
    have := check_token_of_not_any st t h
    unfold LocalCommState.check_token at this
    exact Option.map_eq_none.mp this
  rw [h1]
  simp

theorem check_token_append_other (st : LocalCommState) (t c : String) (r rc : Registration)
    (h : st.check_token t = some r) :
    (LocalCommState.mk st.unix_socket_path (st.registered_tokens ++ [(c, rc)])).check_token t
      = some r := by
  unfold LocalCommState.check_token at h ⊢
  obtain ⟨p, hp, hmap⟩ := Option.map_eq_some.mp h
  rw [List.find?_append, hp]
  simp [hmap]

/-- C10: when register_task returns a token, that token was not in the
registry before the call, check_token on it afterwards yields exactly
the registration passed in, and every previously registered token still
maps to its original registration. -/
theorem register_task_fresh (st : LocalCommState) (registration : Registration)
    (candidates : List String) (tok : String) (st' : LocalCommState)
    (h : st.register_task registration candidates = some (tok, st')) :
    st.check_token tok = none ∧
    st'.check_token tok = some registration ∧
    ∀ t r, st.check_token t = some r → st'.check_token t = some r := by
  induction candidates with
  | nil => cases h
  | cons c rest ih =>
    unfold LocalCommState.register_task at h
    by_cases hc : st.registered_tokens.any (fun p => p.1 = c) = true
    · rw [if_pos hc] at h
      exact ih h
    · rw [if_neg hc] at h
      have hcf : st.registered_tokens.any (fun p => p.1 = c) = false :=
        Bool.eq_false_iff.mpr hc
      injection h with h
      injection h with h1 h2
      subst h1
      subst h2
      refine ⟨check_token_of_not_any st c hcf, ?_, ?_⟩
      · exact check_token_append_self st c registration hcf
      · intro t r hr
        exact check_token_append_other st t c r registration hr

/-- C10 witness: starting from a registry holding token a, with a
candidate stream whose first draw collides with a, register_task returns
the second candidate b; b was free before, now maps to the new
registration, and a keeps its original registration. -/
theorem register_task_fresh_witness :
    oneTokenState.check_token "b" = none ∧
    twoTokenState.check_token "b" = some (Registration.DataConnection 2) ∧
    twoTokenState.check_token "a" = some (Registration.DataConnection 1) := by
  have h := register_task_fresh oneTokenState (Registration.DataConnection 2) ["a", "b"]
    "b" twoTokenState (by decide)
  exact ⟨h.1, h.2.1, h.2.2 "a" (Registration.DataConnection 1) (by decide)⟩

theorem refresh_loop_trace {S : Type} (h : QueueHandler S) :
    ∀ (ids : List AllocationId) (s : S) (d : DescriptorState),
      (refresh_loop h ids s d).2.2 = ids.map HandlerCall.StatusCall := by
  intro ids
  induction ids with
  | nil => intro s d; rfl
  | cons aid ids ih =>
    intro s d
    simp [refresh_loop, ih]

theorem schedule_loop_trace_schedule {S : Type} (h : QueueHandler S) (did now : Nat) :
    ∀ (fuel waiting : Nat) (s : S) (d : DescriptorState) (c : HandlerCall),
      c ∈ (schedule_loop h did now fuel s d waiting).2.2 →
      ∃ w, c = HandlerCall.ScheduleCall w := by
  intro fuel
  induction fuel with
  | zero =>
    intro waiting s d c hc
    simp [schedule_loop] at hc
  | succ fuel ih =>
    intro waiting s d c hc
    rw [schedule_loop] at hc
    cases hres : (h.schedule_allocation s did d.info d.info.workers_per_alloc).1 with
    | ok created =>
      rw [hres] at hc
      simp only at hc
      by_cases hz : waiting - d.info.workers_per_alloc = 0
      · rw [if_pos hz] at hc
        simp at hc
        exact ⟨_, hc⟩
      · rw [if_neg hz] at hc
        simp only [List.mem_cons] at hc
        rcases hc with hc | hc
        · exact ⟨_, hc⟩
        · exact ih _ _ _ c hc
    | error err =>
      rw [hres] at hc
      simp only [List.mem_cons] at hc
      rcases hc with hc | hc
      · exact ⟨_, hc⟩
      · exact ih _ _ _ c hc

theorem schedule_trace_schedule {S : Type} (h : QueueHandler S) (did now : Nat)
    (jobs : List Job) (s : S) (d : DescriptorState) (c : HandlerCall)
    (hc : c ∈ (schedule_new_allocations h did now jobs s d).2.2) :
    ∃ w, c = HandlerCall.ScheduleCall w := by
  unfold schedule_new_allocations at hc
  by_cases hw : count_available_tasks jobs d.info = 0
  · rw [if_pos hw] at hc
    simp at hc
  · rw [if_neg hw] at hc
    exact schedule_loop_trace_schedule h did now _ _ s d c hc

/-- C7: within one tick of a descriptor, every status-refresh handler
call appears in the call trace strictly before every schedule_allocation
call: the Refresh phase of a descriptor completes before its Schedule
phase issues the first submission. -/
theorem refresh_precedes_schedule {S : Type} (h : QueueHandler S) (did now : Nat)
    (jobs : List Job) (s : S) (d : DescriptorState) (i j : Nat)
    (aid : AllocationId) (w : Nat)
    (hi : (process_descriptor h did now jobs s d).2.2[i]? = some (HandlerCall.StatusCall aid))
    (hj : (process_descriptor h did now jobs s d).2.2[j]? = some (HandlerCall.ScheduleCall w)) :
    i < j := by
  unfold process_descriptor at hi hj
  simp only at hi hj
  set tr1 := (refresh_allocations h s d).2.2 with htr1
  set tr2 := (schedule_new_allocations h did now jobs
    (refresh_allocations h s d).1 (refresh_allocations h s d).2.1).2.2 with htr2
  have hstatus : ∀ c ∈ tr1, ∃ a, c = HandlerCall.StatusCall a := by
    intro c hc
    rw [htr1] at hc
    unfold refresh_allocations at hc
    rw [refresh_loop_trace] at hc
    obtain ⟨a, _, rfl⟩ := List.mem_map.mp hc
    exact ⟨a, rfl⟩
  have hsched : ∀ c ∈ tr2, ∃ w, c = HandlerCall.ScheduleCall w := by
    intro c hc
    rw [htr2] at hc
    exact schedule_trace_schedule h did now jobs _ _ c hc
  have hjge : tr1.length ≤ j := by
    by_contra hlt
    push_neg at hlt
    rw [List.getElem?_append_left hlt] at hj
    obtain ⟨a, ha⟩ := hstatus _ (List.getElem?_mem hj)
    cases ha
  have hilt : i < tr1.length := by
    by_contra hge
    push_neg at hge
    rw [List.getElem?_append_right hge] at hi
    obtain ⟨w', hw'⟩ := hsched _ (List.getElem?_mem hi)
    cases hw'
  omega

/-- C7 witness: a concrete tick on a descriptor with one queued
allocation issues the trace StatusCall a, ScheduleCall 1, so the status
call at index 0 precedes the schedule call at index 1. -/
theorem refresh_precedes_schedule_witness :
    (process_descriptor okHandler 0 0 fiveTaskJobs () oneQueuedDescriptor).2.2[0]?
        = some (HandlerCall.StatusCall "a") ∧
    (process_descriptor okHandler 0 0 fiveTaskJobs () oneQueuedDescriptor).2.2[1]?
        = some (HandlerCall.ScheduleCall 1) ∧
    (0 : Nat) < 1 := by
  refine ⟨by decide, by decide, ?_⟩
  exact refresh_precedes_schedule okHandler 0 0 fiveTaskJobs () oneQueuedDescriptor 0 1 "a" 1
    (by decide) (by decide)

theorem count_available_eq_filter_sum (jobs : List Job) (qi : QueueInfo) :
    count_available_tasks jobs qi
      = ((jobs.filter (fun j => j.min_time < qi.timelimit)).map Job.n_waiting_tasks).sum := by
  induction jobs with
  | nil => rfl
  | cons j jobs ih =>
    by_cases hj : j.min_time < qi.timelimit
    · simp [count_available_tasks, can_provide_worker, List.filter_cons, hj] at ih ⊢
      omega
    · simp [count_available_tasks, can_provide_worker, List.filter_cons, hj] at ih ⊢
      exact ih

/-- C3: count_available_tasks counts a job's waiting tasks only when its
min_time is strictly below the queue walltime; when every job has
min_time at least the walltime, or no job has waiting tasks, the count
is zero and the Schedule phase returns without calling the handler or
touching the descriptor. -/
theorem count_available_tasks_gate (jobs : List Job) (qi : QueueInfo) :
    (count_available_tasks jobs qi
      = ((jobs.filter (fun j => j.min_time < qi.timelimit)).map Job.n_waiting_tasks).sum) ∧
    (((∀ j ∈ jobs, qi.timelimit ≤ j.min_time) ∨ (∀ j ∈ jobs, j.n_waiting_tasks = 0)) →
      count_available_tasks jobs qi = 0 ∧
      ∀ (S : Type) (h : QueueHandler S) (did now : Nat) (s : S) (d : DescriptorState),
        d.info = qi → schedule_new_allocations h did now jobs s d = (s, d, [])) := by
  refine ⟨count_available_eq_filter_sum jobs qi, ?_⟩
  intro hgate
  have hzero : count_available_tasks jobs qi = 0 := by
    unfold count_available_tasks
    rw [List.sum_eq_zero]
    intro x hx
    obtain ⟨j, hj, rfl⟩ := List.mem_map.mp hx
    rcases hgate with hg | hg
    · have := hg j hj
      have hcp : can_provide_worker j qi = false := by
        unfold can_provide_worker
        simp
        omega
      rw [hcp]
      simp
    · by_cases hcp : can_provide_worker j qi
      · rw [if_pos hcp]
        exact hg j hj
      · rw [if_neg hcp]
  refine ⟨hzero, ?_⟩
  intro S h did now s d hinfo
  unfold schedule_new_allocations
  rw [hinfo, hzero]
  simp

/-- C3 witness: for a single job with min_time 3600 against walltime
1800 the count is zero and the Schedule phase of a tick does nothing. -/
theorem count_available_tasks_gate_witness :
    count_available_tasks [{ min_time := 3600, n_waiting_tasks := 1 }]
      { backlog := 1, workers_per_alloc := 1, timelimit := 1800 } = 0 ∧
    schedule_new_allocations okHandler 0 0 [{ min_time := 3600, n_waiting_tasks := 1 }] ()
      (freshDescriptor 1 1 1800)
      = ((), freshDescriptor 1 1 1800, []) := by
  have h := (count_available_tasks_gate [{ min_time := 3600, n_waiting_tasks := 1 }]
    { backlog := 1, workers_per_alloc := 1, timelimit := 1800 }).2
    (Or.inl (by intro j hj; simp at hj; rw [hj]; decide))
  exact ⟨h.1, h.2 Unit okHandler 0 0 () (freshDescriptor 1 1 1800) rfl⟩

theorem find?_set_status (l : List Allocation) (aid : AllocationId) (st : AllocationStatus) :
    (l.map (fun a => if a.id = aid then { a with status := st } else a)).find?
        (fun a => a.id = aid)
      = (l.find? (fun a => a.id = aid)).map (fun a => { a with status := st }) := by
  induction l with
  | nil => rfl
  | cons a l ih =>
    by_cases ha : a.id = aid
    · rw [List.map_cons, if_pos ha]
      rw [List.find?_cons_of_pos _ (by simp [ha]), List.find?_cons_of_pos _ (by simp [ha])]
      rfl
    · rw [List.map_cons, if_neg ha]
      rw [List.find?_cons_of_neg _ (by simp [ha]), List.find?_cons_of_neg _ (by simp [ha])]
      exact ih

theorem find?_filter_ne (l : List Allocation) (aid : AllocationId) :
    (l.filter (fun a => a.id ≠ aid)).find? (fun a => a.id = aid) = none := by
  rw [List.find?_eq_none]
  intro x hx
  have hmem := (List.mem_filter.mp hx).2
  simp at hmem ⊢
  exact hmem

/-- C5: the Refresh phase's handling of one active allocation: a Running
report for a previously Queued allocation appends AllocationStarted and
stores status Running; an Ok-None report removes the allocation and
appends AllocationDisappeared; an error report appends StatusFail and
leaves the stored allocations untouched. -/
theorem refresh_one_status_cases {S : Type} (h : QueueHandler S) (s : S)
    (d : DescriptorState) (aid : AllocationId) :
    (match (h.get_allocation_status s aid).1 with
    | Except.ok (some (AllocationStatus.Running t)) =>
      match d.get_allocation aid with
      | some alloc =>
        ((refresh_one h s d aid).2.get_allocation aid).map Allocation.status
            = some (AllocationStatus.Running t) ∧
        (refresh_one h s d aid).2.events
          = d.events ++ (if alloc.status = AllocationStatus.Queued
              then [AllocationEvent.AllocationStarted aid] else [])
      | none => (refresh_one h s d aid).2 = d
    | Except.ok none =>
      (refresh_one h s d aid).2.get_allocation aid = none ∧
      (refresh_one h s d aid).2.allocations = d.allocations.filter (fun a => a.id ≠ aid) ∧
      (refresh_one h s d aid).2.events
        = d.events ++ [AllocationEvent.AllocationDisappeared aid]
    | Except.error e =>
      (refresh_one h s d aid).2.events = d.events ++ [AllocationEvent.StatusFail e] ∧
      (refresh_one h s d aid).2.allocations = d.allocations
    | _ => True) := by
  obtain ⟨r, s2, hres⟩ : ∃ r s2, h.get_allocation_status s aid = (r, s2) := ⟨_, _, rfl⟩
  unfold refresh_one
  rw [hres]
  simp only
  cases r with
  | error e => exact ⟨rfl, rfl⟩
  | ok ost =>
    cases ost with
    | none =>
      refine ⟨?_, rfl, rfl⟩
      simp only [DescriptorState.get_allocation, DescriptorState.add_event,
        DescriptorState.remove_allocation]
      exact find?_filter_ne d.allocations aid
    | some st =>
      cases st with
      | Queued => trivial
      | Finished t1 t2 => trivial
      | Failed t1 t2 => trivial
      | Running t =>
        cases hga : d.get_allocation aid with
        | none => rfl
        | some alloc =>
          dsimp only
          constructor
          · by_cases hq : alloc.status = AllocationStatus.Queued
            · rw [if_pos hq]
              simp only [DescriptorState.get_allocation, DescriptorState.set_status,
                DescriptorState.add_event]
              rw [find?_set_status]
              unfold DescriptorState.get_allocation at hga
              rw [hga]
              rfl
            · rw [if_neg hq]
              simp only [DescriptorState.get_allocation, DescriptorState.set_status]
              rw [find?_set_status]
              unfold DescriptorState.get_allocation at hga
              rw [hga]
              rfl
          · by_cases hq : alloc.status = AllocationStatus.Queued
            · rw [if_pos hq, if_pos hq]
              rfl
            · rw [if_neg hq, if_neg hq]
              simp [DescriptorState.set_status]

theorem schedule_loop_zero {S : Type} (h : QueueHandler S) (did now : Nat) (s : S)
    (d : DescriptorState) (waiting : Nat) :
    schedule_loop h did now 0 s d waiting = (s, d, []) := rfl

theorem schedule_loop_succ_ok_last {S : Type} (h : QueueHandler S) (did now fuel : Nat)
    (s : S) (d : DescriptorState) (waiting : Nat) (c : CreatedAllocation) (s2 : S)
    (hc : h.schedule_allocation s did d.info d.info.workers_per_alloc = (Except.ok c, s2))
    (hz : waiting - d.info.workers_per_alloc = 0) :
    schedule_loop h did now (fuel + 1) s d waiting
      = (s2,
         (d.add_event (AllocationEvent.AllocationQueued c.id)).add_allocation
           { id := c.id, worker_count := d.info.workers_per_alloc, queued_at := now,
             status := AllocationStatus.Queued, working_dir := c.working_dir },
         [HandlerCall.ScheduleCall d.info.workers_per_alloc]) := by
  simp [schedule_loop, hc, hz]

theorem schedule_loop_succ_ok_cont {S : Type} (h : QueueHandler S) (did now fuel : Nat)
    (s : S) (d : DescriptorState) (waiting : Nat) (c : CreatedAllocation) (s2 : S)
    (hc : h.schedule_allocation s did d.info d.info.workers_per_alloc = (Except.ok c, s2))
    (hz : waiting - d.info.workers_per_alloc ≠ 0) :
    schedule_loop h did now (fuel + 1) s d waiting
      = ((schedule_loop h did now fuel s2
            ((d.add_event (AllocationEvent.AllocationQueued c.id)).add_allocation
              { id := c.id, worker_count := d.info.workers_per_alloc, queued_at := now,
                status := AllocationStatus.Queued, working_dir := c.working_dir })
            (waiting - d.info.workers_per_alloc)).1,
         (schedule_loop h did now fuel s2
            ((d.add_event (AllocationEvent.AllocationQueued c.id)).add_allocation
              { id := c.id, worker_count := d.info.workers_per_alloc, queued_at := now,
                status := AllocationStatus.Queued, working_dir := c.working_dir })
            (waiting - d.info.workers_per_alloc)).2.1,
         HandlerCall.ScheduleCall d.info.workers_per_alloc ::
           (schedule_loop h did now fuel s2
             ((d.add_event (AllocationEvent.AllocationQueued c.id)).add_allocation
               { id := c.id, worker_count := d.info.workers_per_alloc, queued_at := now,
                 status := AllocationStatus.Queued, working_dir := c.working_dir })
             (waiting - d.info.workers_per_alloc)).2.2) := by
  simp [schedule_loop, hc, hz]

theorem schedule_loop_succ_err_eq {S : Type} (h : QueueHandler S) (did now fuel : Nat)
    (s : S) (d : DescriptorState) (waiting : Nat) (e : String) (s2 : S)
    (hc : h.schedule_allocation s did d.info d.info.workers_per_alloc = (Except.error e, s2)) :
    schedule_loop h did now (fuel + 1) s d waiting
      = ((schedule_loop h did now fuel s2
            (d.add_event (AllocationEvent.QueueFail e)) waiting).1,
         (schedule_loop h did now fuel s2
            (d.add_event (AllocationEvent.QueueFail e)) waiting).2.1,
         HandlerCall.ScheduleCall d.info.workers_per_alloc ::
           (schedule_loop h did now fuel s2
             (d.add_event (AllocationEvent.QueueFail e)) waiting).2.2) := by
  simp [schedule_loop, hc]

theorem ceil_div_eq_one (w p : Nat) (hp : 0 < p) (hw : 0 < w) (hle : w ≤ p) :
    (w + p - 1) / p = 1 := by
  have h1 : w + p - 1 = (w - 1) + p := by omega
  rw [h1, Nat.add_div_right _ hp, Nat.div_eq_of_lt (by omega)]

theorem ceil_div_succ (w p : Nat) (hp : 0 < p) (hgt : p < w) :
    (w + p - 1) / p = (w - p + p - 1) / p + 1 := by
  have h1 : w + p - 1 = (w - p + p - 1) + p := by omega
  rw [h1, Nat.add_div_right _ hp]

theorem schedule_loop_ok_spec {S : Type} (h : QueueHandler S) (did now : Nat) (info : QueueInfo)
    (hok : ∀ (s : S) (w : Nat), ∃ c s2,
      h.schedule_allocation s did info w = (Except.ok c, s2))
    (hwpa : 0 < info.workers_per_alloc) :
    ∀ (fuel waiting : Nat) (s : S) (d : DescriptorState), d.info = info → 0 < waiting →
    ∃ created : List CreatedAllocation,
      created.length = min fuel
        ((waiting + info.workers_per_alloc - 1) / info.workers_per_alloc) ∧
      (schedule_loop h did now fuel s d waiting).2.1.allocations
        = d.allocations ++ created.map (fun c =>
            { id := c.id, worker_count := info.workers_per_alloc, queued_at := now,
              status := AllocationStatus.Queued, working_dir := c.working_dir }) ∧
      (schedule_loop h did now fuel s d waiting).2.1.events
        = d.events ++ created.map (fun c => AllocationEvent.AllocationQueued c.id) := by
  intro fuel
  induction fuel with
  | zero =>
    intro waiting s d hd hw
    exact ⟨[], by simp, by simp [schedule_loop_zero], by simp [schedule_loop_zero]⟩
  | succ fuel ih =>
    intro waiting s d hd hw
    obtain ⟨c, s2, hc⟩ := hok s info.workers_per_alloc
    have hc' : h.schedule_allocation s did d.info d.info.workers_per_alloc
        = (Except.ok c, s2) := by
      rw [hd]
      exact hc
    by_cases hz : waiting - d.info.workers_per_alloc = 0
    · rw [schedule_loop_succ_ok_last h did now fuel s d waiting c s2 hc' hz]
      refine ⟨[c], ?_, ?_, ?_⟩
      · have hone : (waiting + info.workers_per_alloc - 1) / info.workers_per_alloc = 1 := by
          apply ceil_div_eq_one _ _ hwpa hw
          rw [hd] at hz
          omega
        rw [hone]
        simp
      · simp [DescriptorState.add_event, DescriptorState.add_allocation, hd]
      · simp [DescriptorState.add_event, DescriptorState.add_allocation]
    · rw [schedule_loop_succ_ok_cont h did now fuel s d waiting c s2 hc' hz]
      have hd' : ((d.add_event (AllocationEvent.AllocationQueued c.id)).add_allocation
          { id := c.id, worker_count := d.info.workers_per_alloc, queued_at := now,
            status := AllocationStatus.Queued, working_dir := c.working_dir }).info = info := by
        rw [← hd]
        rfl
      have hw' : 0 < waiting - d.info.workers_per_alloc := by omega
      obtain ⟨created, hlen, hallocs, hevents⟩ := ih (waiting - d.info.workers_per_alloc) s2
        ((d.add_event (AllocationEvent.AllocationQueued c.id)).add_allocation
          { id := c.id, worker_count := d.info.workers_per_alloc, queued_at := now,
            status := AllocationStatus.Queued, working_dir := c.working_dir }) hd' hw'
      refine ⟨c :: created, ?_, ?_, ?_⟩
      · have hsucc : (waiting + info.workers_per_alloc - 1) / info.workers_per_alloc
            = (waiting - info.workers_per_alloc + info.workers_per_alloc - 1)
                / info.workers_per_alloc + 1 := by
          apply ceil_div_succ _ _ hwpa
          rw [hd] at hz
          omega
        rw [hsucc]
        rw [List.length_cons, hlen, hd]
        exact (Nat.succ_min_succ fuel _).symm
      · rw [hallocs]
        simp [DescriptorState.add_event, DescriptorState.add_allocation, hd]
      · rw [hevents]
        simp [DescriptorState.add_event, DescriptorState.add_allocation]

/-- C1: on a tick whose handler always succeeds, with W positive
feasible waiting tasks, backlog B, Q currently queued allocations and P
workers per allocation, the Schedule phase creates exactly
min (B - Q) (ceil (W / P)) allocations (B - Q is the saturating
subtraction, i.e. max 0 (B - Q)), appends each to the allocation map in
state Queued with worker_count P, and appends exactly one
AllocationQueued event per created allocation. -/
theorem schedule_creates_min_allocations {S : Type} (h : QueueHandler S) (did now : Nat)
    (jobs : List Job) (s : S) (d : DescriptorState)
    (hok : ∀ (s' : S) (w : Nat), ∃ c s'',
      h.schedule_allocation s' did d.info w = (Except.ok c, s''))
    (hW : 0 < count_available_tasks jobs d.info)
    (hP : 0 < d.info.workers_per_alloc) :
    ∃ created : List CreatedAllocation,
      created.length = min (d.info.backlog - d.queued_allocations.length)
        ((count_available_tasks jobs d.info + d.info.workers_per_alloc - 1)
          / d.info.workers_per_alloc) ∧
      (schedule_new_allocations h did now jobs s d).2.1.allocations
        = d.allocations ++ created.map (fun c =>
            { id := c.id, worker_count := d.info.workers_per_alloc, queued_at := now,
              status := AllocationStatus.Queued, working_dir := c.working_dir }) ∧
      (schedule_new_allocations h did now jobs s d).2.1.events
        = d.events ++ created.map (fun c => AllocationEvent.AllocationQueued c.id) := by
  unfold schedule_new_allocations
  rw [if_neg (by omega)]
  exact schedule_loop_ok_spec h did now d.info hok hP
    (d.info.backlog - d.queued_allocations.length) (count_available_tasks jobs d.info)
    s d rfl hW

/-- C1 witness: with 5 waiting tasks, backlog 5 and 2 workers per
allocation, one Schedule phase creates exactly 3 allocations, matching
ceil (5 / 2) = 3 rather than the backlog 5. -/
theorem schedule_creates_min_allocations_witness :
    (schedule_new_allocations okHandler 0 0 fiveTaskJobs ()
      (freshDescriptor 5 2 60)).2.1.allocations.length = 3 := by
  obtain ⟨created, hlen, hallocs, hevents⟩ :=
    schedule_creates_min_allocations okHandler 0 0 fiveTaskJobs () (freshDescriptor 5 2 60)
      (fun s' w => ⟨{ id := "x", working_dir := "" }, s', rfl⟩) (by decide) (by decide)
  rw [hallocs, List.length_append, List.length_map, hlen]
  decide

theorem refresh_one_info {S : Type} (h : QueueHandler S) (s : S) (d : DescriptorState)
    (aid : AllocationId) : (refresh_one h s d aid).2.info = d.info := by
  obtain ⟨r, s2, hres⟩ : ∃ r s2, h.get_allocation_status s aid = (r, s2) := ⟨_, _, rfl⟩
  unfold refresh_one
  rw [hres]
  cases r with
  | error e => rfl
  | ok ost =>
    cases ost with
    | none => rfl
    | some st =>
      cases st with
      | Queued => rfl
      | Finished t1 t2 => rfl
      | Failed t1 t2 => rfl
      | Running t =>
        cases d.get_allocation aid with
        | none => rfl
        | some alloc =>
          dsimp only
          split <;> rfl

theorem refresh_loop_info {S : Type} (h : QueueHandler S) :
    ∀ (ids : List AllocationId) (s : S) (d : DescriptorState),
      (refresh_loop h ids s d).2.1.info = d.info := by
  intro ids
  induction ids with
  | nil => intro s d; rfl
  | cons aid ids ih =>
    intro s d
    rw [show refresh_loop h (aid :: ids) s d
      = ((refresh_loop h ids (refresh_one h s d aid).1 (refresh_one h s d aid).2).1,
         (refresh_loop h ids (refresh_one h s d aid).1 (refresh_one h s d aid).2).2.1,
         HandlerCall.StatusCall aid ::
           (refresh_loop h ids (refresh_one h s d aid).1 (refresh_one h s d aid).2).2.2)
      from rfl]
    rw [show ((refresh_loop h ids (refresh_one h s d aid).1 (refresh_one h s d aid).2).1,
         (refresh_loop h ids (refresh_one h s d aid).1 (refresh_one h s d aid).2).2.1,
         HandlerCall.StatusCall aid ::
           (refresh_loop h ids (refresh_one h s d aid).1 (refresh_one h s d aid).2).2.2).2.1
      = (refresh_loop h ids (refresh_one h s d aid).1 (refresh_one h s d aid).2).2.1 from rfl]
    rw [ih (refresh_one h s d aid).1 (refresh_one h s d aid).2]
    exact refresh_one_info h s d aid

theorem queued_length_add_alloc (d : DescriptorState) (e : AllocationEvent) (a : Allocation) :
    ((d.add_event e).add_allocation a).queued_allocations.length
      ≤ d.queued_allocations.length + 1 := by
  unfold DescriptorState.queued_allocations DescriptorState.add_event
    DescriptorState.add_allocation
  rw [List.filter_append, List.length_append]
  have hone : (List.filter (fun a => decide (a.status = AllocationStatus.Queued)) [a]).length
      ≤ 1 := by
    rw [List.filter_cons]
    split <;> simp
  simp only
  omega

theorem schedule_loop_queued_le {S : Type} (h : QueueHandler S) (did now : Nat) :
    ∀ (fuel waiting : Nat) (s : S) (d : DescriptorState),
      (schedule_loop h did now fuel s d waiting).2.1.queued_allocations.length
        ≤ d.queued_allocations.length + fuel := by
  intro fuel
  induction fuel with
  | zero =>
    intro waiting s d
    simp [schedule_loop_zero]
  | succ fuel ih =>
    intro waiting s d
    obtain ⟨r, s2, hc⟩ : ∃ r s2,
        h.schedule_allocation s did d.info d.info.workers_per_alloc = (r, s2) := ⟨_, _, rfl⟩
    cases r with
    | ok c =>
      by_cases hz : waiting - d.info.workers_per_alloc = 0
      · rw [schedule_loop_succ_ok_last h did now fuel s d waiting c s2 hc hz]
        have := queued_length_add_alloc d (AllocationEvent.AllocationQueued c.id)
          { id := c.id, worker_count := d.info.workers_per_alloc, queued_at := now,
            status := AllocationStatus.Queued, working_dir := c.working_dir }
        simp only
        omega
      · rw [schedule_loop_succ_ok_cont h did now fuel s d waiting c s2 hc hz]
        have h1 := ih (waiting - d.info.workers_per_alloc) s2
          ((d.add_event (AllocationEvent.AllocationQueued c.id)).add_allocation
            { id := c.id, worker_count := d.info.workers_per_alloc, queued_at := now,
              status := AllocationStatus.Queued, working_dir := c.working_dir })
        have h2 := queued_length_add_alloc d (AllocationEvent.AllocationQueued c.id)
          { id := c.id, worker_count := d.info.workers_per_alloc, queued_at := now,
            status := AllocationStatus.Queued, working_dir := c.working_dir }
        simp only
        omega
    | error e =>
      rw [schedule_loop_succ_err_eq h did now fuel s d waiting e s2 hc]
      have h1 := ih waiting s2 (d.add_event (AllocationEvent.QueueFail e))
      have h2 : (d.add_event (AllocationEvent.QueueFail e)).queued_allocations.length
          = d.queued_allocations.length := rfl
      simp only
      omega

theorem schedule_queued_le_max {S : Type} (h : QueueHandler S) (did now : Nat)
    (jobs : List Job) (s : S) (d : DescriptorState) :
    (schedule_new_allocations h did now jobs s d).2.1.queued_allocations.length
      ≤ max d.queued_allocations.length d.info.backlog := by
  unfold schedule_new_allocations
  by_cases hw : count_available_tasks jobs d.info = 0
  · rw [if_pos hw]
    exact le_max_left _ _
  · rw [if_neg hw]
    have := schedule_loop_queued_le h did now
      (d.info.backlog - d.queued_allocations.length)
      (count_available_tasks jobs d.info) s d
    rcases Nat.le_total d.queued_allocations.length d.info.backlog with hle | hle
    · rw [Nat.max_eq_right hle]
      omega
    · rw [Nat.max_eq_left hle]
      omega

/-- C2 (amended): the Schedule phase never lifts the number of Queued
allocations above the configured backlog: after a tick, the queued count
is at most the maximum of the backlog and the queued count the Refresh
phase left behind.  The original claim, that the number of active
(Queued or Running) allocations stays within the backlog, is false: the
scheduler only counts Queued allocations against the backlog, so once
allocations start Running the active count can exceed it. -/
theorem queued_bounded_after_tick {S : Type} (h : QueueHandler S) (did now : Nat)
    (jobs : List Job) (s : S) (d : DescriptorState) :
    (process_descriptor h did now jobs s d).2.1.queued_allocations.length
      ≤ max (refresh_allocations h s d).2.1.queued_allocations.length d.info.backlog := by
  unfold process_descriptor
  dsimp only
  have h1 := schedule_queued_le_max h did now jobs (refresh_allocations h s d).1
    (refresh_allocations h s d).2.1
  have h2 : (refresh_allocations h s d).2.1.info = d.info := by
    unfold refresh_allocations
    exact refresh_loop_info h _ s d
  rw [h2] at h1
  exact h1

/-- C2 counterexample: a descriptor with backlog 1 holding one Running
allocation; the tick refreshes it (still Running) and then queues one
more allocation because only Queued allocations count against the
backlog, so afterwards 2 active allocations exceed the backlog 1. -/
theorem active_exceeds_backlog_after_tick :
    ((autoalloc_tick 0 fiveTaskJobs
        [{ handler := runningHandler, hstate := (), dstate := runningDescriptor }]).map
      (fun e => (e.dstate.active_allocations.length, e.dstate.info.backlog)))
      = [(2, 1)] := by
  decide

theorem schedule_loop_err_spec {S : Type} (h : QueueHandler S) (did now : Nat)
    (info : QueueInfo)
    (herr : ∀ (s : S) (w : Nat), ∃ e s2,
      h.schedule_allocation s did info w = (Except.error e, s2)) :
    ∀ (fuel waiting : Nat) (s : S) (d : DescriptorState), d.info = info →
    ∃ errs : List String, errs.length = fuel ∧
      (schedule_loop h did now fuel s d waiting).2.1.allocations = d.allocations ∧
      (schedule_loop h did now fuel s d waiting).2.1.events
        = d.events ++ errs.map (fun e => AllocationEvent.QueueFail e) := by
  intro fuel
  induction fuel with
  | zero =>
    intro waiting s d hd
    exact ⟨[], rfl, by simp [schedule_loop_zero], by simp [schedule_loop_zero]⟩
  | succ fuel ih =>
    intro waiting s d hd
    obtain ⟨e, s2, hc⟩ := herr s info.workers_per_alloc
    have hc' : h.schedule_allocation s did d.info d.info.workers_per_alloc
        = (Except.error e, s2) := by
      rw [hd]
      exact hc
    rw [schedule_loop_succ_err_eq h did now fuel s d waiting e s2 hc']
    obtain ⟨errs, hlen, hallocs, hevents⟩ := ih waiting s2
      (d.add_event (AllocationEvent.QueueFail e)) (by rw [← hd]; rfl)
    refine ⟨e :: errs, by simp [hlen], ?_, ?_⟩
    · simpa [DescriptorState.add_event] using hallocs
    · rw [show ((schedule_loop h did now fuel s2
          (d.add_event (AllocationEvent.QueueFail e)) waiting).1,
         (schedule_loop h did now fuel s2
            (d.add_event (AllocationEvent.QueueFail e)) waiting).2.1,
         HandlerCall.ScheduleCall d.info.workers_per_alloc ::
           (schedule_loop h did now fuel s2
             (d.add_event (AllocationEvent.QueueFail e)) waiting).2.2).2.1
        = (schedule_loop h did now fuel s2
            (d.add_event (AllocationEvent.QueueFail e)) waiting).2.1 from rfl]
      rw [hevents]
      simp [DescriptorState.add_event]

theorem schedule_err_all_fail {S : Type} (h : QueueHandler S) (did now : Nat)
    (jobs : List Job) (info : QueueInfo)
    (herr : ∀ (s : S) (w : Nat), ∃ e s2,
      h.schedule_allocation s did info w = (Except.error e, s2))
    (hW : 0 < count_available_tasks jobs info)
    (s : S) (d : DescriptorState) (hd : d.info = info) :
    (schedule_new_allocations h did now jobs s d).2.1.allocations = d.allocations ∧
    ∃ errs : List String, errs.length = info.backlog - d.queued_allocations.length ∧
      (schedule_new_allocations h did now jobs s d).2.1.events
        = d.events ++ errs.map (fun e => AllocationEvent.QueueFail e) := by
  unfold schedule_new_allocations
  rw [if_neg (by rw [hd]; omega)]
  obtain ⟨errs, hlen, hallocs, hevents⟩ := schedule_loop_err_spec h did now info herr
    (d.info.backlog - d.queued_allocations.length) (count_available_tasks jobs d.info)
    s d hd
  rw [hd] at hlen
  exact ⟨hallocs, errs, hlen, hevents⟩

/-- C4: when schedule_allocation fails during the Schedule loop, the
error is recorded as a QueueFail event, no allocation is inserted, and
the loop keeps going: with an always-failing handler every one of the
backlog-minus-queued iterations runs and appends its own QueueFail
event while the allocation map is left unchanged; in particular a tick
on a fresh descriptor with backlog 1 leaves no allocations and exactly
one QueueFail event. -/
theorem queue_fail_recorded_non_fatal {S : Type} (h : QueueHandler S) (did now : Nat)
    (jobs : List Job) (info : QueueInfo)
    (herr : ∀ (s : S) (w : Nat), ∃ e s2,
      h.schedule_allocation s did info w = (Except.error e, s2))
    (hW : 0 < count_available_tasks jobs info) :
    (∀ (s : S) (d : DescriptorState), d.info = info →
      (schedule_new_allocations h did now jobs s d).2.1.allocations = d.allocations ∧
      ∃ errs : List String, errs.length = info.backlog - d.queued_allocations.length ∧
        (schedule_new_allocations h did now jobs s d).2.1.events
          = d.events ++ errs.map (fun e => AllocationEvent.QueueFail e)) ∧
    (∀ (s : S) (d : DescriptorState), d.info = info → d.allocations = [] → d.events = [] →
      info.backlog = 1 →
      (process_descriptor h did now jobs s d).2.1.allocations = [] ∧
      ∃ e, (process_descriptor h did now jobs s d).2.1.events
        = [AllocationEvent.QueueFail e]) := by
  refine ⟨fun s d hd => schedule_err_all_fail h did now jobs info herr hW s d hd, ?_⟩
  intro s d hd hempty hevempty hb1
  have hrefresh : refresh_allocations h s d = (s, d, []) := by
    unfold refresh_allocations
    rw [show d.active_allocations = [] from by
      unfold DescriptorState.active_allocations
      rw [hempty]
      rfl]
    rfl
  unfold process_descriptor
  rw [hrefresh]
  dsimp only
  obtain ⟨hallocs, errs, hlen, hevents⟩ :=
    schedule_err_all_fail h did now jobs info herr hW s d hd
  have hq : d.queued_allocations.length = 0 := by
    unfold DescriptorState.queued_allocations
    rw [hempty]
    rfl
  rw [hq, hb1] at hlen
  obtain ⟨e, rfl⟩ := List.length_eq_one.mp hlen
  refine ⟨by rw [hallocs, hempty], e, ?_⟩
  rw [hevents, hevempty]
  rfl

/-- C4 witness: one tick with the always-failing handler on a fresh
backlog-1 descriptor produces no allocations and an event log of length
one. -/
theorem queue_fail_recorded_non_fatal_witness :
    (process_descriptor errHandler 0 0 fiveTaskJobs () (freshDescriptor 1 1 60)).2.1.allocations
      = [] ∧
    (process_descriptor errHandler 0 0 fiveTaskJobs ()
      (freshDescriptor 1 1 60)).2.1.events.length = 1 := by
  obtain ⟨h1, e, he⟩ := (queue_fail_recorded_non_fatal errHandler 0 0 fiveTaskJobs
    { backlog := 1, workers_per_alloc := 1, timelimit := 60 }
    (fun s w => ⟨"foo", s, rfl⟩) (by decide)).2 () (freshDescriptor 1 1 60) rfl rfl rfl rfl
  exact ⟨h1, by rw [he]; rfl⟩

theorem shutdown_calls_eq (descs : List DescriptorState) :
    autoalloc_shutdown_calls descs
      = (((descs.map DescriptorState.allocations).flatten).filter
          (fun a => a.is_active)).map (fun a => a.id) := by
  induction descs with
  | nil => rfl
  | cons d descs ih =>
    unfold autoalloc_shutdown_calls at ih ⊢
    simp only [List.map_cons, List.flatten_cons, List.filter_append, List.map_append]
    rw [ih]

theorem count_id_filter_active (L : List Allocation) (a : Allocation)
    (hnodup : (L.map Allocation.id).Nodup) (ha : a ∈ L) :
    ((L.filter (fun x => x.is_active)).map (fun x => x.id)).count a.id
      = if a.is_active then 1 else 0 := by
  induction L with
  | nil => cases ha
  | cons b L ih =>
    rw [List.map_cons, List.nodup_cons] at hnodup
    obtain ⟨hbid, hnd⟩ := hnodup
    have htail_zero : ∀ x : AllocationId, x ∉ L.map Allocation.id →
        ((L.filter (fun y => y.is_active)).map (fun y => y.id)).count x = 0 := by
      intro x hx
      apply List.count_eq_zero_of_not_mem
      intro hmem
      obtain ⟨y, hy, hyx⟩ := List.mem_map.mp hmem
      exact hx (List.mem_map.mpr ⟨y, (List.mem_filter.mp hy).1, hyx⟩)
    rcases List.mem_cons.mp ha with rfl | haL
    · rw [List.filter_cons]
      by_cases hact : a.is_active
      · rw [if_pos (by simp [hact]), List.map_cons, List.count_cons_self,
          htail_zero a.id hbid, if_pos hact]
      · rw [if_neg (by simp [hact]), htail_zero a.id hbid, if_neg hact]
    · have hne : a.id ≠ b.id := by
        intro heq
        exact hbid (heq ▸ List.mem_map.mpr ⟨a, haL, rfl⟩)
      rw [List.filter_cons]
      by_cases hact : b.is_active
      · rw [if_pos (by simp [hact]), List.map_cons, List.count_cons, ih hnd haL]
        simp [hne]
        exact fun e => hne e.symm
      · rw [if_neg (by simp [hact])]
        exact ih hnd haL

/-- C8: autoalloc_shutdown issues exactly one remove_allocation call for
every allocation that is active (Queued or Running) in the snapshot, and
no call for allocations in terminal states, across all descriptors
(allocation ids are assumed globally distinct, as they identify batch
jobs). -/
theorem shutdown_one_call_per_active (descs : List DescriptorState)
    (hnodup : (((descs.map DescriptorState.allocations).flatten).map Allocation.id).Nodup) :
    ∀ d ∈ descs, ∀ a ∈ d.allocations,
      (autoalloc_shutdown_calls descs).count a.id = if a.is_active then 1 else 0 := by
  intro d hd a ha
  rw [shutdown_calls_eq]
  apply count_id_filter_active _ _ hnodup
  exact List.mem_flatten.mpr ⟨d.allocations, List.mem_map.mpr ⟨d, hd, rfl⟩, ha⟩

/-- C8 witness: with a Queued allocation a and a Finished allocation c
in one descriptor and a Running allocation b in another, shutdown calls
remove_allocation once for a, once for b and never for c. -/
theorem shutdown_one_call_per_active_witness :
    (autoalloc_shutdown_calls shutdownDescriptors).count "a" = 1 ∧
    (autoalloc_shutdown_calls shutdownDescriptors).count "b" = 1 ∧
    (autoalloc_shutdown_calls shutdownDescriptors).count "c" = 0 := by
  have h := shutdown_one_call_per_active shutdownDescriptors (by decide)
  refine ⟨?_, ?_, ?_⟩
  · simpa using h
      { info := { backlog := 4, workers_per_alloc := 1, timelimit := 60 },
        allocations := [{ id := "a", worker_count := 1, queued_at := 0,
                          status := AllocationStatus.Queued, working_dir := "" },
                        { id := "c", worker_count := 1, queued_at := 0,
                          status := AllocationStatus.Finished 1 2, working_dir := "" }],
        events := [] } (by decide)
      { id := "a", worker_count := 1, queued_at := 0,
        status := AllocationStatus.Queued, working_dir := "" } (by decide)
  · simpa using h
      { info := { backlog := 4, workers_per_alloc := 1, timelimit := 60 },
        allocations := [{ id := "b", worker_count := 1, queued_at := 0,
                          status := AllocationStatus.Running 1, working_dir := "" }],
        events := [] } (by decide)
      { id := "b", worker_count := 1, queued_at := 0,
        status := AllocationStatus.Running 1, working_dir := "" } (by decide)
  · simpa using h
      { info := { backlog := 4, workers_per_alloc := 1, timelimit := 60 },
        allocations := [{ id := "a", worker_count := 1, queued_at := 0,
                          status := AllocationStatus.Queued, working_dir := "" },
                        { id := "c", worker_count := 1, queued_at := 0,
                          status := AllocationStatus.Finished 1 2, working_dir := "" }],
        events := [] } (by decide)
      { id := "c", worker_count := 1, queued_at := 0,
        status := AllocationStatus.Finished 1 2, working_dir := "" } (by decide)
